import Mathlib

/-!
Verification of the per-device streaming state-processing engine of the
smart-streetlight repository.  Two transport variants are embedded:

* `processSensorData` — the backend engine (`app/backend.py`): fixed-size
  ring buffers with incrementally maintained running sums, a dead-band
  hysteresis latch, brightness decision and two sequential anomaly checks.
* `VmState.process` / `onMessage` — the broker-side engine
  (`gcp/vm_subscriber.py`): growing lists capped by `pop(0)`, mean-of-window
  smoothing, 800/600 hysteresis thresholds, and an expected-power anomaly
  model.

Python integers are modelled by `Int`, Python floats by `Rat` (the numeric
values the engine manipulates are decimal literals and ratios, all exactly
representable), and `round(x, 1)` by `pyRound1`, the Python round-half-to-even rounding
at one decimal place.
-/

namespace StreetLight

/-- WINDOW_SIZE constant of the backend engine. -/
def WINDOW_SIZE : Nat := 10

/-- MOTION_HISTORY_SIZE constant of the backend engine. -/
def MOTION_HISTORY_SIZE : Nat := 60

/-- One raw reading handed to the engine: `raw_ldr`, `motion`, `power`. -/
structure Reading where
  raw_ldr : Int
  motion : Int
  power : Rat
deriving Repr, DecidableEq

/-- The Python `round` at one decimal place: scale by 10, round half to even
(the non-tie case is rounding to the nearest integer, `⌊y + 1/2⌋`), divide
by 10. -/
def pyRound1 (x : Rat) : Rat :=
  let y := x * 10
  let f : Int := ⌊y⌋
  let r : Int :=
    if y - f = 1 / 2 then (if f % 2 = 0 then f else f + 1)
    else ⌊y + 1 / 2⌋
  (r : Rat) / 10

/-- The per-device mutable state kept by the backend engine
(`get_device_state` initialises exactly these seven fields). -/
structure BackendState where
  ldr_readings : List Int
  ldr_index : Nat
  ldr_sum : Int
  is_night : Bool
  motion_history : List Int
  motion_index : Nat
  motion_sum : Int
deriving Repr, DecidableEq

/-- Fresh state created for a previously unseen device id. -/
def initState : BackendState :=
  { ldr_readings := List.replicate WINDOW_SIZE 0
    ldr_index := 0
    ldr_sum := 0
    is_night := false
    motion_history := List.replicate MOTION_HISTORY_SIZE 0
    motion_index := 0
    motion_sum := 0 }

/-- The record returned by one `process_sensor_data` call. -/
@[ext] structure ProcessedResult where
  smooth_ldr : Int
  is_night : Bool
  brightness : Int
  traffic_intensity : Rat
  anomaly : Int
deriving Repr, DecidableEq

/-- Backend engine: one `process_sensor_data` call, returning the result
record and the updated device state.  Each line follows the Python body:
subtract the evicted sample, overwrite the slot, add the new sample, advance
the index mod the window size; dead-band hysteresis against
`WINDOW_SIZE // 2`; motion ring buffer likewise; brightness from the updated
latch and the current motion; two sequential anomaly checks, the second
overwriting the first. -/
def processSensorData (s : BackendState) (raw_ldr motion : Int) (power : Rat) :
    ProcessedResult × BackendState :=
  let ldr_sum0 := s.ldr_sum - s.ldr_readings.getD s.ldr_index 0
  let ldr_readings1 := s.ldr_readings.set s.ldr_index raw_ldr
  let ldr_sum1 := ldr_sum0 + raw_ldr
  let ldr_index1 := (s.ldr_index + 1) % WINDOW_SIZE
  let smooth_ldr := ldr_sum1
  let is_night1 :=
    if smooth_ldr > (WINDOW_SIZE : Int) / 2 then true
    else if smooth_ldr < (WINDOW_SIZE : Int) / 2 then false
    else s.is_night
  let motion_sum0 := s.motion_sum - s.motion_history.getD s.motion_index 0
  let motion_history1 := s.motion_history.set s.motion_index motion
  let motion_sum1 := motion_sum0 + motion
  let motion_index1 := (s.motion_index + 1) % MOTION_HISTORY_SIZE
  let traffic_intensity : Rat := ((motion_sum1 : Rat) / (MOTION_HISTORY_SIZE : Rat)) * 100
  let target_brightness : Int :=
    if is_night1 then (if motion > 0 then 100 else 30) else 0
  let anomaly0 : Int := if target_brightness > 10 ∧ power < 1 / 10 then 1 else 0
  let anomaly1 : Int := if target_brightness = 0 ∧ power > 1 then 2 else anomaly0
  ({ smooth_ldr := smooth_ldr
     is_night := is_night1
     brightness := target_brightness
     traffic_intensity := pyRound1 traffic_intensity
     anomaly := anomaly1 },
   { ldr_readings := ldr_readings1
     ldr_index := ldr_index1
     ldr_sum := ldr_sum1
     is_night := is_night1
     motion_history := motion_history1
     motion_index := motion_index1
     motion_sum := motion_sum1 })

/-- State after a sequence of `process_sensor_data` calls for one device. -/
def runState (s : BackendState) : List Reading → BackendState
  | [] => s
  | i :: rest => runState (processSensorData s i.raw_ldr i.motion i.power).2 rest

/-- The results of a sequence of calls, in call order. -/
def runResults (s : BackendState) : List Reading → List ProcessedResult
  | [] => []
  | i :: rest =>
      (processSensorData s i.raw_ldr i.motion i.power).1 ::
        runResults (processSensorData s i.raw_ldr i.motion i.power).2 rest

/-- Evaluation of `pyRound1` on the traffic-intensity values the backend
produces: for an integer window sum `z`, `(z/60)*100` rounded at one decimal
is `((100*z + 3) / 6) / 10` (the half-to-even tie can never occur because
the scaled value has denominator 3). -/
theorem pyRound1_div60 (z : Int) :
    pyRound1 ((z : Rat) / 60 * 100) = (((100 * z + 3) / 6 : Int) : Rat) / 10 := by
  unfold pyRound1
  have hy : (z : Rat) / 60 * 100 * 10 = ((50 * z : Int) : Rat) / ((3 : Nat) : Rat) := by
    push_cast
    ring
  have hf : ⌊(z : Rat) / 60 * 100 * 10⌋ = 50 * z / 3 := by
    rw [hy, Rat.floor_intCast_div_natCast]
    norm_num
  have hnotie : ¬((z : Rat) / 60 * 100 * 10 - (⌊(z : Rat) / 60 * 100 * 10⌋ : Rat) = 1 / 2) := by
    rw [hf, hy]
    intro h
    have h6 : (2 * (50 * z : Int) : Rat) - 6 * ((50 * z / 3 : Int) : Rat) = 3 := by
      field_simp at h
      linarith
    have h7 : (2 * (50 * z) - 6 * (50 * z / 3) : Int) = 3 := by
      exact_mod_cast h6
    omega
  have hy2 : (z : Rat) / 60 * 100 * 10 + 1 / 2
      = ((100 * z + 3 : Int) : Rat) / ((6 : Nat) : Rat) := by
    push_cast
    ring
  simp only [hnotie, if_false, hy2, Rat.floor_intCast_div_natCast]
  norm_num

/-! ### The global device-state store (`device_states` dictionary) -/

/-- The `device_states` dictionary: device id to state, initially empty. -/
def Store := String → Option BackendState

/-- The empty `device_states` dictionary. -/
def initStore : Store := fun _ => none

/-- `get_device_state`: return the stored state, initialising a fresh one
for a previously unseen device id. -/
def getDeviceState (st : Store) (d : String) : BackendState × Store :=
  match st d with
  | some s => (s, st)
  | none => (initState, fun x => if x = d then some initState else st x)

/-- One call of the engine through the store: look up (or create) the
state of the device, process the reading, store the updated state back under the
same device id. -/
def processData (st : Store) (d : String) (raw m : Int) (p : Rat) :
    ProcessedResult × Store :=
  let sp := getDeviceState st d
  let rs := processSensorData sp.1 raw m p
  (rs.1, fun x => if x = d then some rs.2 else sp.2 x)

/-- The store after a sequence of calls, each tagged with its device id. -/
def runStore (st : Store) : List (String × Reading) → Store
  | [] => st
  | (d, i) :: rest => runStore (processData st d i.raw_ldr i.motion i.power).2 rest

/-! ### Structural invariant of a device state -/

/-- Structural invariant: the two ring buffers have their fixed capacities,
the indices are in range, and each running sum equals the exact sum of its
contents of the buffer. -/
def Inv (s : BackendState) : Prop :=
  s.ldr_readings.length = WINDOW_SIZE ∧ s.ldr_index < WINDOW_SIZE ∧
  s.ldr_sum = s.ldr_readings.sum ∧
  s.motion_history.length = MOTION_HISTORY_SIZE ∧
  s.motion_index < MOTION_HISTORY_SIZE ∧
  s.motion_sum = s.motion_history.sum

theorem sum_set_getD (l : List Int) (i : Nat) (v : Int) (h : i < l.length) :
    (l.set i v).sum = l.sum - l.getD i 0 + v := by
  rw [List.sum_set', dif_pos h, List.getD_eq_getElem l 0 h]
  ring

theorem inv_initState : Inv initState := by
  refine ⟨by decide, by decide, by decide, by decide, by decide, by decide⟩

theorem inv_step (s : BackendState) (r m : Int) (p : Rat) (h : Inv s) :
    Inv (processSensorData s r m p).2 := by
  obtain ⟨h1, h2, h3, h4, h5, h6⟩ := h
  refine ⟨?_, ?_, ?_, ?_, ?_, ?_⟩ <;>
    simp only [processSensorData, List.length_set]
  · exact h1
  · exact Nat.mod_lt _ (by decide)
  · rw [sum_set_getD s.ldr_readings s.ldr_index r (by omega), h3]
  · exact h4
  · exact Nat.mod_lt _ (by decide)
  · rw [sum_set_getD s.motion_history s.motion_index m (by omega), h6]

theorem inv_runState (l : List Reading) (s : BackendState) (h : Inv s) :
    Inv (runState s l) := by
  induction l generalizing s with
  | nil => exact h
  | cons i rest ih => exact ih _ (inv_step s i.raw_ldr i.motion i.power h)

/-- Every state stored in the dictionary satisfies the invariant. -/
def StoreInv (st : Store) : Prop :=
  ∀ d s, st d = some s → Inv s

theorem storeInv_init : StoreInv initStore := fun _ _ h => by
  simp [initStore] at h

theorem inv_getDeviceState (st : Store) (d : String) (h : StoreInv st) :
    Inv (getDeviceState st d).1 := by
  unfold getDeviceState
  cases hst : st d
  · exact inv_initState
  · exact h d _ hst

theorem storeInv_processData (st : Store) (d : String) (raw m : Int) (p : Rat)
    (h : StoreInv st) : StoreInv (processData st d raw m p).2 := by
  intro x s hx
  have hx2 : (if x = d then some (processSensorData (getDeviceState st d).1 raw m p).2
      else (getDeviceState st d).2 x) = some s := hx
  by_cases hxd : x = d
  · rw [if_pos hxd] at hx2
    have hs : s = (processSensorData (getDeviceState st d).1 raw m p).2 :=
      (Option.some.inj hx2).symm
    rw [hs]
    exact inv_step _ raw m p (inv_getDeviceState st d h)
  · rw [if_neg hxd] at hx2
    cases hst : st d with
    | none =>
        simp only [getDeviceState, hst, if_neg hxd] at hx2
        exact h x s hx2
    | some t =>
        simp only [getDeviceState, hst] at hx2
        exact h x s hx2

theorem storeInv_runStore (ops : List (String × Reading)) (st : Store)
    (h : StoreInv st) : StoreInv (runStore st ops) := by
  induction ops generalizing st with
  | nil => exact h
  | cons op rest ih =>
      exact ih _ (storeInv_processData st op.1 op.2.raw_ldr op.2.motion op.2.power h)

/-- C1.  Ring-buffer running-sum invariant: for every device and after any
finite sequence of `process_sensor_data` calls, the stored light running sum
equals the exact integer sum of the light window contents of the buffer, and the
stored motion running sum equals the exact integer sum of the motion window
contents of the buffer. -/
theorem ring_buffer_running_sum_invariant (ops : List (String × Reading)) (d : String) :
    (getDeviceState (runStore initStore ops) d).1.ldr_sum
        = (getDeviceState (runStore initStore ops) d).1.ldr_readings.sum ∧
    (getDeviceState (runStore initStore ops) d).1.motion_sum
        = (getDeviceState (runStore initStore ops) d).1.motion_history.sum := by
  have h := inv_getDeviceState (runStore initStore ops) d
    (storeInv_runStore ops initStore storeInv_init)
  exact ⟨h.2.2.1, h.2.2.2.2.2⟩

/-! ### Night-state hysteresis -/

theorem is_night_fst_eq_snd (s : BackendState) (r m : Int) (p : Rat) :
    (processSensorData s r m p).1.is_night = (processSensorData s r m p).2.is_night := rfl

theorem is_night_step (s : BackendState) (r m : Int) (p : Rat) :
    (processSensorData s r m p).2.is_night =
      (if (processSensorData s r m p).1.smooth_ldr > 5 then true
       else if (processSensorData s r m p).1.smooth_ldr < 5 then false
       else s.is_night) := by
  simp only [processSensorData, WINDOW_SIZE]
  norm_num

theorem is_night_step_deadband (s : BackendState) (r m : Int) (p : Rat)
    (h5 : (processSensorData s r m p).1.smooth_ldr = 5) :
    (processSensorData s r m p).2.is_night = s.is_night := by
  rw [is_night_step, h5]
  norm_num

theorem deadband_persist (b : Bool) (l : List Reading) :
    ∀ (s : BackendState), s.is_night = b →
    ((runResults s l).all fun r => decide (r.smooth_ldr = 5)) = true →
    ((runResults s l).all fun r => r.is_night == b) = true := by
  induction l with
  | nil => intro s _ _; rfl
  | cons i rest ih =>
      intro s hb hdead
      rw [runResults, List.all_cons, Bool.and_eq_true] at hdead ⊢
      obtain ⟨h1, h2⟩ := hdead
      have h5 : (processSensorData s i.raw_ldr i.motion i.power).1.smooth_ldr = 5 :=
        of_decide_eq_true h1
      have hstep : (processSensorData s i.raw_ldr i.motion i.power).2.is_night = b :=
        (is_night_step_deadband s i.raw_ldr i.motion i.power h5).trans hb
      refine ⟨?_, ih _ hstep h2⟩
      rw [is_night_fst_eq_snd, hstep]
      exact beq_self_eq_true b

/-- C2.  Night-state hysteresis with dead band (sum convention, N = 10): on
each call, aggregate > 5 sets the latch true, aggregate < 5 sets it false,
and aggregate = 5 leaves it unchanged; consequently a trace whose aggregate
stays in the dead band keeps `is_night` at whatever value it had when the
dead band was entered, in both directions. -/
theorem night_state_hysteresis :
    (∀ (s : BackendState) (r m : Int) (p : Rat),
       (processSensorData s r m p).2.is_night =
         (if (processSensorData s r m p).1.smooth_ldr > 5 then true
          else if (processSensorData s r m p).1.smooth_ldr < 5 then false
          else s.is_night)) ∧
    (∀ (s : BackendState) (l : List Reading), s.is_night = true →
       ((runResults s l).all fun r => decide (r.smooth_ldr = 5)) = true →
       ((runResults s l).all fun r => r.is_night) = true) ∧
    (∀ (s : BackendState) (l : List Reading), s.is_night = false →
       ((runResults s l).all fun r => decide (r.smooth_ldr = 5)) = true →
       ((runResults s l).all fun r => !r.is_night) = true) := by
  refine ⟨is_night_step, ?_, ?_⟩
  · intro s l hb hdead
    have h := deadband_persist true l s hb hdead
    simpa using h
  · intro s l hb hdead
    have h := deadband_persist false l s hb hdead
    simpa using h

/-- A state whose latch is already night (dead-band entry point for the
witness below). -/
def stTrue : BackendState := { initState with is_night := true }

theorem night_state_hysteresis_witness :
    stTrue.is_night = true ∧
    ((runResults stTrue [⟨5, 0, 0⟩]).all fun r => decide (r.smooth_ldr = 5)) = true ∧
    ((runResults stTrue [⟨5, 0, 0⟩]).all fun r => r.is_night) = true :=
  ⟨rfl, by decide, night_state_hysteresis.2.1 stTrue [⟨5, 0, 0⟩] rfl (by decide)⟩

/-! ### The broker-side variant (`gcp/vm_subscriber.py`) -/

/-- `window_size` of the broker-side `DeviceState`. -/
def window_size : Nat := 10

/-- `history_size` of the broker-side `DeviceState`. -/
def history_size : Nat := 60

/-- Broker-side per-device state: plain lists capped by `pop(0)`. -/
structure VmState where
  ldr_window : List Int
  is_night : Bool
  motion_history : List Int
deriving Repr, DecidableEq

/-- Fresh broker-side state (`DeviceState.__init__`). -/
def vmInit : VmState := ⟨[], false, []⟩

/-- Broker-side `DeviceState.process`: append the sample, pop the oldest
when the list exceeds its capacity, smooth by the arithmetic mean, latch
with the 800/600 thresholds, and return
`(smooth_ldr, is_night, intensity, updated state)`. -/
def VmState.process (s : VmState) (raw_ldr motion : Int) : Rat × Bool × Rat × VmState :=
  let w1 := s.ldr_window ++ [raw_ldr]
  let w2 := if w1.length > window_size then w1.drop 1 else w1
  let smooth_ldr : Rat := (w2.sum : Rat) / (w2.length : Rat)
  let is_night1 :=
    if smooth_ldr > 800 then true
    else if smooth_ldr < 600 then false
    else s.is_night
  let m1 := s.motion_history ++ [motion]
  let m2 := if m1.length > history_size then m1.drop 1 else m1
  let intensity : Rat := ((m2.sum : Rat) / (m2.length : Rat)) * 100
  (smooth_ldr, is_night1, intensity, ⟨w2, is_night1, m2⟩)

/-- Broker-side `on_message` decision logic: brightness from the updated
latch and the current motion, anomaly from the expected-power model
`|power − (brightness/100)·5.0| > 1.0`.  Returns
`(target_brightness, anomaly, updated state)`. -/
def onMessage (s : VmState) (raw m : Int) (p : Rat) : Int × Int × VmState :=
  let r := s.process raw m
  let is_night1 := r.2.1
  let target_brightness : Int := if is_night1 then (if m = 1 then 100 else 30) else 0
  let expected_power : Rat := (target_brightness : Rat) / 100 * 5
  let anomaly : Int := if |p - expected_power| > 1 then 1 else 0
  (target_brightness, anomaly, r.2.2.2)

/-- C3 counterexample: on the broker-side variant, after the two readings
`raw_light = 1` then `raw_light = 0` the returned smoothed value is `1/2`
(the mean) while the light window contents sum to `1`, so `smoothed_light`
does not equal the window sum on every transport variant. -/
theorem smoothed_light_not_sum_on_vm :
    ((vmInit.process 1 0).2.2.2.process 0 0).1 = 1 / 2 ∧
    (((vmInit.process 1 0).2.2.2.process 0 0).2.2.2.ldr_window.sum : Rat) = 1 ∧
    ((vmInit.process 1 0).2.2.2.process 0 0).1
      ≠ ((((vmInit.process 1 0).2.2.2.process 0 0).2.2.2.ldr_window.sum : Rat)) := by
  have h1 : vmInit.process 1 0 = (1, false, 0, ⟨[1], false, [0]⟩) := by
    simp only [VmState.process, vmInit, window_size, history_size]
    norm_num
  have h2 : (VmState.mk [1] false [0]).process 0 0
      = (1 / 2, false, 0, ⟨[1, 0], false, [0, 0]⟩) := by
    simp only [VmState.process, window_size, history_size]
    norm_num
  rw [h1, h2]
  norm_num

/-- C3 (amended).  `smoothed_light` equals the sum of the light window
current contents in the backend engine; the broker-side variant instead
returns the arithmetic mean (window sum divided by current window length). -/
theorem smoothed_light_per_variant :
    (∀ (ops : List (String × Reading)) (d : String) (raw m : Int) (p : Rat),
       (processSensorData (getDeviceState (runStore initStore ops) d).1 raw m p).1.smooth_ldr
         = (processSensorData (getDeviceState (runStore initStore ops) d).1 raw m p).2.ldr_readings.sum) ∧
    (∀ (s : VmState) (raw m : Int),
       (s.process raw m).1
         = ((s.process raw m).2.2.2.ldr_window.sum : Rat)
             / ((s.process raw m).2.2.2.ldr_window.length : Rat)) := by
  constructor
  · intro ops d raw m p
    have hinv := inv_step _ raw m p
      (inv_getDeviceState (runStore initStore ops) d
        (storeInv_runStore ops initStore storeInv_init))
    exact hinv.2.2.1
  · intro s raw m
    rfl

/-! ### Brightness decision -/

/-- The documented brightness decision as a pure function of the latch and
the current motion sample. -/
def brightnessOf (night : Bool) (m : Int) : Int :=
  if night then (if m = 1 then 100 else 30) else 0

/-- C4.  Brightness is a pure function of the updated `is_night` latch and
the current motion sample only: 0 when not night, 100 when night with
motion 1, 30 when night with motion 0 — in both transport variants, under
the precondition `motion ∈ {0, 1}`. -/
theorem brightness_pure_function (m : Int) (hm : m = 0 ∨ m = 1) :
    (∀ (s : BackendState) (raw : Int) (p : Rat),
       (processSensorData s raw m p).1.brightness
         = brightnessOf (processSensorData s raw m p).1.is_night m) ∧
    (∀ (t : VmState) (raw : Int) (p : Rat),
       (onMessage t raw m p).1 = brightnessOf (t.process raw m).2.1 m) := by
  constructor
  · intro s raw p
    show (if (processSensorData s raw m p).1.is_night
        then (if m > 0 then 100 else 30) else 0)
      = brightnessOf (processSensorData s raw m p).1.is_night m
    unfold brightnessOf
    rcases hm with h | h <;> subst h <;> norm_num
  · intro t raw p
    rfl

theorem brightness_pure_function_witness :
    ((1 : Int) = 0 ∨ (1 : Int) = 1) ∧
    (processSensorData initState 0 1 0).1.brightness
      = brightnessOf (processSensorData initState 0 1 0).1.is_night 1 ∧
    (onMessage vmInit 0 1 0).1 = brightnessOf (vmInit.process 0 1).2.1 1 :=
  ⟨Or.inr rfl,
   (brightness_pure_function 1 (Or.inr rfl)).1 initState 0 0,
   (brightness_pure_function 1 (Or.inr rfl)).2 vmInit 0 0⟩

/-! ### Anomaly classification (backend two-check variant) -/

theorem ite_code_iff (c1 c2 : Prop) [Decidable c1] [Decidable c2] (hd : ¬(c1 ∧ c2)) :
    ((if c2 then (2 : Int) else if c1 then 1 else 0) = 1 ↔ c1) ∧
    ((if c2 then (2 : Int) else if c1 then 1 else 0) = 2 ↔ c2) ∧
    ((if c2 then (2 : Int) else if c1 then 1 else 0) = 0 ↔ (¬c1 ∧ ¬c2)) := by
  by_cases h2 : c2 <;> by_cases h1 : c1
  · exact absurd ⟨h1, h2⟩ hd
  · simp [h1, h2]
  · simp [h1, h2]
  · simp [h1, h2]

/-- C5.  Anomaly classification: the returned code is the single integer
given by checking code 2 (`brightness == 0 ∧ power > 1.0`) after code 1
(`brightness > 10 ∧ power < 0.1`), and the two firing conditions can never
hold together; equivalently, the code is 1 exactly on the code-1 condition,
2 exactly on the code-2 condition and 0 otherwise. -/
theorem anomaly_classification (s : BackendState) (raw m : Int) (p : Rat) :
    ((processSensorData s raw m p).1.anomaly
      = (if (processSensorData s raw m p).1.brightness = 0 ∧ p > 1 then 2
         else if (processSensorData s raw m p).1.brightness > 10 ∧ p < 1 / 10 then 1
         else 0)) ∧
    ¬(((processSensorData s raw m p).1.brightness > 10 ∧ p < 1 / 10) ∧
      ((processSensorData s raw m p).1.brightness = 0 ∧ p > 1)) ∧
    ((processSensorData s raw m p).1.anomaly = 1
      ↔ ((processSensorData s raw m p).1.brightness > 10 ∧ p < 1 / 10)) ∧
    ((processSensorData s raw m p).1.anomaly = 2
      ↔ ((processSensorData s raw m p).1.brightness = 0 ∧ p > 1)) ∧
    ((processSensorData s raw m p).1.anomaly = 0
      ↔ (¬((processSensorData s raw m p).1.brightness > 10 ∧ p < 1 / 10) ∧
         ¬((processSensorData s raw m p).1.brightness = 0 ∧ p > 1))) := by
  have hdisj : ¬(((processSensorData s raw m p).1.brightness > 10 ∧ p < 1 / 10) ∧
      ((processSensorData s raw m p).1.brightness = 0 ∧ p > 1)) := by
    rintro ⟨⟨hb1, _⟩, ⟨hb2, _⟩⟩
    omega
  have hdef : (processSensorData s raw m p).1.anomaly
      = (if (processSensorData s raw m p).1.brightness = 0 ∧ p > 1 then 2
         else if (processSensorData s raw m p).1.brightness > 10 ∧ p < 1 / 10 then 1
         else 0) := rfl
  have hiff := ite_code_iff
    ((processSensorData s raw m p).1.brightness > 10 ∧ p < 1 / 10)
    ((processSensorData s raw m p).1.brightness = 0 ∧ p > 1) hdisj
  exact ⟨hdef, hdisj, hdef ▸ hiff.1, hdef ▸ hiff.2.1, hdef ▸ hiff.2.2⟩

/-! ### Ring-buffer contents viewed oldest-first -/

/-- The contents of a ring buffer in logical order (oldest sample first),
given the write index. -/
def wnd (buf : List Int) (idx : Nat) : List Int := buf.drop idx ++ buf.take idx

theorem wnd_length (buf : List Int) (idx : Nat) (h : idx ≤ buf.length) :
    (wnd buf idx).length = buf.length := by
  simp only [wnd, List.length_append, List.length_drop, List.length_take]
  omega

theorem wnd_sum (buf : List Int) (idx : Nat) : (wnd buf idx).sum = buf.sum := by
  rw [wnd, List.sum_append, add_comm, ← List.sum_append, List.take_append_drop]

/-- Overwriting the slot at the write index and advancing the index mod the
capacity evicts the oldest logical sample and appends the new one. -/
theorem wnd_set (buf : List Int) (idx : Nat) (v : Int) (h : idx < buf.length) :
    wnd (buf.set idx v) ((idx + 1) % buf.length) = (wnd buf idx).drop 1 ++ [v] := by
  have hset : buf.set idx v = buf.take idx ++ v :: buf.drop (idx + 1) :=
    List.set_eq_take_cons_drop v h
  have hrhs : (wnd buf idx).drop 1 = buf.drop (idx + 1) ++ buf.take idx := by
    rw [wnd, List.drop_append_eq_append_drop, List.drop_drop]
    have h1 : 1 - (buf.drop idx).length = 0 := by
      simp only [List.length_drop]
      omega
    rw [h1, List.drop_zero]
  by_cases htop : idx + 1 < buf.length
  · rw [Nat.mod_eq_of_lt htop, hrhs]
    rw [wnd, hset]
    rw [List.drop_append_eq_append_drop, List.take_append_eq_append_take]
    have hlt : (buf.take idx).length = idx := List.length_take_of_le (by omega)
    rw [hlt]
    have h2 : (buf.take idx).drop (idx + 1) = [] :=
      List.drop_eq_nil_of_le (by omega)
    have h3 : idx + 1 - idx = 1 := by omega
    have h4 : (buf.take idx).take (idx + 1) = buf.take idx :=
      List.take_of_length_le (by omega)
    rw [h2, h3, h4]
    simp
  · have hlen : buf.length = idx + 1 := by omega
    rw [hlen, Nat.mod_self, hrhs]
    have h5 : buf.drop (idx + 1) = [] := List.drop_eq_nil_of_le (by omega)
    rw [wnd, List.drop_zero, List.take_zero, List.append_nil, hset, h5]
    simp

/-- The motion ring buffer of one backend call, in logical order: evict the
oldest sample, append the new motion sample. -/
theorem motion_wnd_step (s : BackendState) (r m : Int) (p : Rat)
    (h1 : s.motion_history.length = MOTION_HISTORY_SIZE)
    (h2 : s.motion_index < MOTION_HISTORY_SIZE) :
    wnd (processSensorData s r m p).2.motion_history
        (processSensorData s r m p).2.motion_index
      = (wnd s.motion_history s.motion_index).drop 1 ++ [m] := by
  have hw := wnd_set s.motion_history s.motion_index m (by omega)
  rw [h1] at hw
  exact hw

theorem runState_append (l1 l2 : List Reading) (s : BackendState) :
    runState s (l1 ++ l2) = runState (runState s l1) l2 := by
  induction l1 generalizing s with
  | nil => rfl
  | cons i rest ih => rw [List.cons_append, runState, runState, ih]

/-- All motion samples of a trace are 1. -/
abbrev AllOnes (l : List Reading) : Prop := ∀ j ∈ l, j.motion = 1

/-- All motion samples of a trace are binary. -/
abbrev MotionsBinary (l : List Reading) : Prop := ∀ j ∈ l, j.motion = 0 ∨ j.motion = 1

/-- Processing a trace of all-ones motion samples fills the motion window
suffix with ones. -/
theorem ones_fill (l : List Reading) (hl : l.length ≤ 60) (hm : AllOnes l) :
    ∀ (s : BackendState), Inv s →
    wnd (runState s l).motion_history (runState s l).motion_index
      = (wnd s.motion_history s.motion_index).drop l.length
          ++ List.replicate l.length 1 := by
  induction l with
  | nil =>
      intro s _
      simp [runState]
  | cons i rest ih =>
      intro s hs
      have hstep := motion_wnd_step s i.raw_ldr i.motion i.power hs.2.2.2.1 hs.2.2.2.2.1
      rw [runState]
      have hinv1 := inv_step s i.raw_ldr i.motion i.power hs
      have hlen60 : s.motion_history.length = 60 := hs.2.2.2.1
      have hidx60 : s.motion_index < 60 := hs.2.2.2.2.1
      have hlc : (i :: rest).length = rest.length + 1 := List.length_cons i rest
      have hrest := ih (by omega) (fun j hj => hm j (List.mem_cons_of_mem _ hj)) _ hinv1
      rw [hrest, hstep, hm i (List.mem_cons_self i rest)]
      have hWlen : (wnd s.motion_history s.motion_index).length = 60 := by
        rw [wnd_length s.motion_history s.motion_index (by omega)]
        exact hlen60
      have hk : rest.length ≤ 59 := by omega
      rw [List.drop_append_eq_append_drop, List.drop_drop]
      have hd1 : ((wnd s.motion_history s.motion_index).drop 1).length = 59 := by
        rw [List.length_drop, hWlen]
      have hz : rest.length - ((wnd s.motion_history s.motion_index).drop 1).length = 0 := by
        rw [hd1]
        omega
      rw [hz, List.drop_zero]
      simp [List.replicate_succ, Nat.add_comm]

/-! ### Traffic intensity -/

/-- Every sample stored in the motion window is binary. -/
abbrev MInv (s : BackendState) : Prop :=
  ∀ x ∈ s.motion_history, x = 0 ∨ x = 1

theorem minv_initState : MInv initState := by
  intro x hx
  left
  exact List.eq_of_mem_replicate hx

theorem minv_step (s : BackendState) (r m : Int) (p : Rat)
    (hm : m = 0 ∨ m = 1) (h : MInv s) :
    MInv (processSensorData s r m p).2 := by
  intro x hx
  rcases List.mem_or_eq_of_mem_set hx with h1 | h2
  · exact h x h1
  · rw [h2]
    exact hm

theorem minv_runState (l : List Reading) (hl : MotionsBinary l) :
    ∀ (s : BackendState), MInv s → MInv (runState s l) := by
  induction l with
  | nil => intro s h; exact h
  | cons i rest ih =>
      intro s h
      exact ih (fun j hj => hl j (List.mem_cons_of_mem _ hj)) _
        (minv_step s i.raw_ldr i.motion i.power (hl i (List.mem_cons_self i rest)) h)

theorem binary_sum_bounds (l : List Int) (hb : ∀ x ∈ l, x = 0 ∨ x = 1) :
    0 ≤ l.sum ∧ l.sum ≤ (l.length : Int) := by
  constructor
  · exact List.sum_nonneg fun x hx => by rcases hb x hx with h | h <;> omega
  · have h := List.sum_le_card_nsmul l 1 fun x hx => by rcases hb x hx with h | h <;> omega
    simpa using h

theorem pyRound1_div60_bounds (z : Int) (h0 : 0 ≤ z) (h60 : z ≤ 60) :
    0 ≤ pyRound1 ((z : Rat) / 60 * 100) ∧ pyRound1 ((z : Rat) / 60 * 100) ≤ 100 := by
  rw [pyRound1_div60]
  have h1 : (0 : Int) ≤ (100 * z + 3) / 6 := by omega
  have h2 : (100 * z + 3) / 6 ≤ 1000 := by omega
  constructor
  · apply div_nonneg _ (by norm_num)
    exact_mod_cast h1
  · rw [div_le_iff₀ (by norm_num : (0 : Rat) < 10)]
    calc (((100 * z + 3) / 6 : Int) : Rat) ≤ (1000 : Int) := by exact_mod_cast h2
      _ = 100 * 10 := by norm_num

/-- The traffic-intensity field of one call is the (rounded) percentage of
the post-call running motion sum over the window size. -/
theorem traffic_formula (s : BackendState) (r m : Int) (p : Rat) :
    (processSensorData s r m p).1.traffic_intensity
      = pyRound1 (((processSensorData s r m p).2.motion_sum : Rat) / 60 * 100) := by
  show pyRound1 (((processSensorData s r m p).2.motion_sum : Rat)
      / ((MOTION_HISTORY_SIZE : Nat) : Rat) * 100) = _
  norm_num [MOTION_HISTORY_SIZE]

/-- C6.  Traffic intensity: on every call the returned percentage equals
the motion-window sum divided by 60, times 100, rounded at one decimal; it
lies in [0, 100] whenever all motion inputs are binary; and it is exactly
100 on the 60th of 60 consecutive motion-1 samples, from any prior
history. -/
theorem traffic_intensity_correct :
    (∀ (pre : List Reading) (i : Reading),
       (processSensorData (runState initState pre) i.raw_ldr i.motion i.power).1.traffic_intensity
         = pyRound1
             ((((processSensorData (runState initState pre)
                   i.raw_ldr i.motion i.power).2.motion_history.sum : Int) : Rat) / 60 * 100)) ∧
    (∀ (pre : List Reading) (i : Reading),
       MotionsBinary pre → (i.motion = 0 ∨ i.motion = 1) →
       0 ≤ (processSensorData (runState initState pre)
              i.raw_ldr i.motion i.power).1.traffic_intensity ∧
       (processSensorData (runState initState pre)
              i.raw_ldr i.motion i.power).1.traffic_intensity ≤ 100) ∧
    (∀ (pre ones : List Reading) (i : Reading),
       ones.length = 59 → AllOnes ones → i.motion = 1 →
       (processSensorData (runState initState (pre ++ ones))
          i.raw_ldr i.motion i.power).1.traffic_intensity = 100) := by
  refine ⟨?_, ?_, ?_⟩
  · intro pre i
    have hinv := inv_step (runState initState pre) i.raw_ldr i.motion i.power
      (inv_runState pre initState inv_initState)
    rw [traffic_formula, hinv.2.2.2.2.2]
  · intro pre i hpre hi
    have hinv0 := inv_runState pre initState inv_initState
    have hinv := inv_step (runState initState pre) i.raw_ldr i.motion i.power hinv0
    have hbin := minv_step (runState initState pre) i.raw_ldr i.motion i.power hi
      (minv_runState pre hpre initState minv_initState)
    have hsb := binary_sum_bounds _ hbin
    have hlen : ((processSensorData (runState initState pre)
        i.raw_ldr i.motion i.power).2.motion_history.length : Int) = 60 := by
      rw [hinv.2.2.2.1]
      rfl
    rw [traffic_formula, hinv.2.2.2.2.2]
    exact pyRound1_div60_bounds _ hsb.1 (by omega)
  · intro pre ones i h59 hones hi
    have hinv0 := inv_runState pre initState inv_initState
    have hrw : (processSensorData (runState initState (pre ++ ones))
        i.raw_ldr i.motion i.power).2 = runState (runState initState pre) (ones ++ [i]) := by
      rw [runState_append, runState_append]
      rfl
    have hfull : AllOnes (ones ++ [i]) := by
      intro j hj
      rcases List.mem_append.mp hj with h | h
      · exact hones j h
      · rw [List.mem_singleton.mp h]
        exact hi
    have hfl : (ones ++ [i]).length = 60 := by
      rw [List.length_append, h59]
      rfl
    have hwnd := ones_fill (ones ++ [i]) (by omega) hfull
      (runState initState pre) hinv0
    rw [hfl] at hwnd
    have hWlen : (wnd (runState initState pre).motion_history
        (runState initState pre).motion_index).length = 60 := by
      rw [wnd_length _ _ (by have h1 := hinv0.2.2.2.1; have h2 := hinv0.2.2.2.2.1; omega)]
      exact hinv0.2.2.2.1
    have hdrop : (wnd (runState initState pre).motion_history
        (runState initState pre).motion_index).drop 60 = [] :=
      List.drop_eq_nil_of_le (by omega)
    rw [hdrop, List.nil_append] at hwnd
    have hinvfin := inv_runState (ones ++ [i]) (runState initState pre) hinv0
    have hsum : (runState (runState initState pre) (ones ++ [i])).motion_sum = 60 := by
      rw [hinvfin.2.2.2.2.2, ← wnd_sum _ (runState (runState initState pre)
        (ones ++ [i])).motion_index, hwnd]
      simp
    rw [traffic_formula, hrw, hsum, pyRound1_div60,
      show ((100 * 60 + 3) / 6 : Int) = 1000 from by decide]
    norm_num

/-- A reading with motion present and no light or power signal. -/
def oneReading : Reading := ⟨0, 1, 0⟩

theorem traffic_intensity_correct_witness :
    MotionsBinary [] ∧ (oneReading.motion = 0 ∨ oneReading.motion = 1) ∧
    (0 ≤ (processSensorData (runState initState [])
            oneReading.raw_ldr oneReading.motion oneReading.power).1.traffic_intensity ∧
     (processSensorData (runState initState [])
            oneReading.raw_ldr oneReading.motion oneReading.power).1.traffic_intensity ≤ 100) ∧
    (List.replicate 59 oneReading).length = 59 ∧
    AllOnes (List.replicate 59 oneReading) ∧
    (processSensorData (runState initState ([] ++ List.replicate 59 oneReading))
        oneReading.raw_ldr oneReading.motion oneReading.power).1.traffic_intensity = 100 :=
  ⟨by decide, Or.inr rfl,
   traffic_intensity_correct.2.1 [] oneReading (by decide) (Or.inr rfl),
   by decide, by decide,
   traffic_intensity_correct.2.2 [] (List.replicate 59 oneReading) oneReading
     (by decide) (by decide) rfl⟩

/-! ### End-to-end example -/

/-- C7.  End-to-end example: from a fresh device, ten consecutive calls
with `raw_light = 1`, `motion = 1`, `power = 4.5` (nine runs of state
evolution followed by the tenth call) return
`smoothed_light = 10`, `is_night = true`, `brightness = 100`,
`anomaly = 0`, `traffic_intensity_pct = 16.7`. -/
theorem end_to_end_example :
    (processSensorData (runState initState (List.replicate 9 ⟨1, 1, 9 / 2⟩)) 1 1 (9 / 2)).1
      = { smooth_ldr := 10
          is_night := true
          brightness := 100
          traffic_intensity := 167 / 10
          anomaly := 0 } := by
  have hb : (processSensorData (runState initState
      (List.replicate 9 ⟨1, 1, 9 / 2⟩)) 1 1 (9 / 2)).1.brightness = 100 := by decide
  ext
  · decide
  · decide
  · exact hb
  · rw [traffic_formula,
      show (processSensorData (runState initState
        (List.replicate 9 ⟨1, 1, 9 / 2⟩)) 1 1 (9 / 2)).2.motion_sum = 10 from by decide,
      pyRound1_div60, show ((100 * 10 + 3) / 6 : Int) = 167 from by decide]
    norm_num
  · rw [show (processSensorData (runState initState
        (List.replicate 9 ⟨1, 1, 9 / 2⟩)) 1 1 (9 / 2)).1.anomaly
      = (if (processSensorData (runState initState
            (List.replicate 9 ⟨1, 1, 9 / 2⟩)) 1 1 (9 / 2)).1.brightness = 0 ∧ (9 / 2 : Rat) > 1
         then 2
         else if (processSensorData (runState initState
            (List.replicate 9 ⟨1, 1, 9 / 2⟩)) 1 1 (9 / 2)).1.brightness > 10
              ∧ (9 / 2 : Rat) < 1 / 10
         then 1 else 0) from rfl, hb]
    norm_num

/-! ### Per-device isolation -/

/-- C8.  Frame property: one engine call for device `d` leaves every other
stored state of other devices untouched; in the concrete scenario, ten calls for
device A with `raw_light = 1` followed by one call for device B with
`raw_light = 0` leave the light running sum of A at 10 while that of B is 0. -/
theorem per_device_isolation :
    (∀ (st : Store) (d d2 : String) (raw m : Int) (p : Rat), d2 ≠ d →
       (processData st d raw m p).2 d2 = st d2) ∧
    ((processData (runStore initStore (List.replicate 10 ("A", ⟨1, 1, 0⟩)))
        "B" 0 0 0).2 "A").map (fun s => s.ldr_sum) = some 10 ∧
    ((processData (runStore initStore (List.replicate 10 ("A", ⟨1, 1, 0⟩)))
        "B" 0 0 0).2 "B").map (fun s => s.ldr_sum) = some 0 := by
  refine ⟨?_, by decide, by decide⟩
  intro st d d2 raw m p hne
  show (if d2 = d then some (processSensorData (getDeviceState st d).1 raw m p).2
      else (getDeviceState st d).2 d2) = st d2
  rw [if_neg hne]
  unfold getDeviceState
  cases hst : st d
  · simp only [if_neg hne]
  · rfl

theorem per_device_isolation_witness :
    ("A" : String) ≠ "B" ∧ (processData initStore "B" 0 0 0).2 "A" = initStore "A" :=
  ⟨by decide, per_device_isolation.1 initStore "B" "A" 0 0 0 (by decide)⟩

/-! ### Broker-side anomaly range -/

/-- C9.  The broker-side anomaly classifier
(`anomaly = 1 if |power − expected| > 1.0 else 0`) only ever returns 0 or
1 — it can never produce code 2. -/
theorem vm_anomaly_range (s : VmState) (raw m : Int) (p : Rat) :
    ((onMessage s raw m p).2.1 = 0 ∨ (onMessage s raw m p).2.1 = 1) ∧
    (onMessage s raw m p).2.1 ≠ 2 := by
  have h : (onMessage s raw m p).2.1
      = (if |p - ((onMessage s raw m p).1 : Rat) / 100 * 5| > 1 then 1 else 0) := rfl
  rw [h]
  by_cases hc : |p - ((onMessage s raw m p).1 : Rat) / 100 * 5| > 1
  · rw [if_pos hc]
    exact ⟨Or.inr rfl, by norm_num⟩
  · rw [if_neg hc]
    exact ⟨Or.inl rfl, by norm_num⟩

/-! ### Broker-side window-length safety -/

/-- Broker-side state after a sequence of `(raw_ldr, motion)` readings. -/
def vmRun (s : VmState) : List (Int × Int) → VmState
  | [] => s
  | (r, m) :: rest => vmRun (s.process r m).2.2.2 rest

theorem vmRun_append (l1 l2 : List (Int × Int)) (s : VmState) :
    vmRun s (l1 ++ l2) = vmRun (vmRun s l1) l2 := by
  induction l1 generalizing s with
  | nil => rfl
  | cons x rest ih =>
      obtain ⟨r, m⟩ := x
      rw [List.cons_append, vmRun, vmRun, ih]

theorem vm_window_step (s : VmState) (r m : Int) :
    (s.process r m).2.2.2.ldr_window
      = (if (s.ldr_window ++ [r]).length > window_size
         then (s.ldr_window ++ [r]).drop 1 else s.ldr_window ++ [r]) := rfl

theorem vm_motion_step (s : VmState) (r m : Int) :
    (s.process r m).2.2.2.motion_history
      = (if (s.motion_history ++ [m]).length > history_size
         then (s.motion_history ++ [m]).drop 1 else s.motion_history ++ [m]) := rfl

/-- Capacity invariant of the broker-side lists. -/
abbrev VmLenInv (s : VmState) : Prop :=
  s.ldr_window.length ≤ 10 ∧ s.motion_history.length ≤ 60

theorem vmLenInv_step (s : VmState) (r m : Int) (h : VmLenInv s) :
    VmLenInv (s.process r m).2.2.2 ∧
    1 ≤ (s.process r m).2.2.2.ldr_window.length ∧
    1 ≤ (s.process r m).2.2.2.motion_history.length := by
  obtain ⟨h1, h2⟩ := h
  have hw := vm_window_step s r m
  have hm := vm_motion_step s r m
  by_cases hc1 : (s.ldr_window ++ [r]).length > window_size <;>
    by_cases hc2 : (s.motion_history ++ [m]).length > history_size <;>
      [rw [if_pos hc1] at hw; rw [if_pos hc1] at hw; rw [if_neg hc1] at hw;
        rw [if_neg hc1] at hw] <;>
      [rw [if_pos hc2] at hm; rw [if_neg hc2] at hm; rw [if_pos hc2] at hm;
        rw [if_neg hc2] at hm] <;>
    refine ⟨⟨?_, ?_⟩, ?_, ?_⟩ <;>
    simp only [hw, hm, List.length_drop, List.length_append, List.length_singleton] <;>
    simp only [List.length_append, List.length_singleton, window_size, history_size,
      gt_iff_lt] at hc1 hc2 <;>
    omega

theorem vmLenInv_run (l : List (Int × Int)) :
    ∀ (s : VmState), VmLenInv s → VmLenInv (vmRun s l) := by
  induction l with
  | nil => intro s h; exact h
  | cons x rest ih =>
      obtain ⟨r, m⟩ := x
      intro s h
      exact ih _ (vmLenInv_step s r m h).1

theorem vm_window_seen_so_far (l : List (Int × Int)) (hl : l.length ≤ 10) :
    (vmRun vmInit l).ldr_window = l.map Prod.fst := by
  induction l using List.reverseRecOn with
  | nil => rfl
  | append_singleton l x ih =>
      obtain ⟨r, m⟩ := x
      have hl9 : l.length ≤ 9 := by
        rw [List.length_append, List.length_singleton] at hl
        omega
      have hprev := ih (by omega)
      rw [vmRun_append, vmRun, vmRun, vm_window_step, hprev, if_neg]
      · rw [List.map_append]
        rfl
      · rw [List.length_append, List.length_map, List.length_singleton]
        simp only [window_size, gt_iff_lt, not_lt]
        omega

theorem vm_motion_seen_so_far (l : List (Int × Int)) (hl : l.length ≤ 60) :
    (vmRun vmInit l).motion_history = l.map Prod.snd := by
  induction l using List.reverseRecOn with
  | nil => rfl
  | append_singleton l x ih =>
      obtain ⟨r, m⟩ := x
      have hl59 : l.length ≤ 59 := by
        rw [List.length_append, List.length_singleton] at hl
        omega
      have hprev := ih (by omega)
      rw [vmRun_append, vmRun, vmRun, vm_motion_step, hprev, if_neg]
      · rw [List.map_append]
        rfl
      · rw [List.length_append, List.length_map, List.length_singleton]
        simp only [history_size, gt_iff_lt, not_lt]
        omega

/-- C10.  Broker-side length safety: after every call the light window
holds between 1 and 10 samples and the motion history between 1 and 60
(each append precedes its pop and its division, so the mean and intensity
denominators are never zero); before the window fills, the window is
exactly the samples seen so far and the smoothed value is their mean. -/
theorem vm_window_safety :
    (∀ (l : List (Int × Int)) (r m : Int),
       (1 ≤ ((vmRun vmInit l).process r m).2.2.2.ldr_window.length ∧
        ((vmRun vmInit l).process r m).2.2.2.ldr_window.length ≤ 10) ∧
       (1 ≤ ((vmRun vmInit l).process r m).2.2.2.motion_history.length ∧
        ((vmRun vmInit l).process r m).2.2.2.motion_history.length ≤ 60)) ∧
    (∀ (l : List (Int × Int)), l.length ≤ 10 →
       (vmRun vmInit l).ldr_window = l.map Prod.fst) ∧
    (∀ (l : List (Int × Int)), l.length ≤ 60 →
       (vmRun vmInit l).motion_history = l.map Prod.snd) ∧
    (∀ (l : List (Int × Int)) (r m : Int), l.length ≤ 9 →
       ((vmRun vmInit l).process r m).1
         = (((l.map Prod.fst ++ [r]).sum : Int) : Rat) / ((l.length + 1 : Nat) : Rat)) := by
  refine ⟨?_, vm_window_seen_so_far, vm_motion_seen_so_far, ?_⟩
  · intro l r m
    have hinv := vmLenInv_run l vmInit (by exact ⟨by decide, by decide⟩)
    have hstep := vmLenInv_step (vmRun vmInit l) r m hinv
    exact ⟨⟨hstep.2.1, hstep.1.1⟩, hstep.2.2, hstep.1.2⟩
  · intro l r m hl
    have hprev := vm_window_seen_so_far l (by omega)
    have hnopop : ¬(((vmRun vmInit l).ldr_window ++ [r]).length > window_size) := by
      rw [hprev, List.length_append, List.length_map, List.length_singleton]
      simp only [window_size, gt_iff_lt, not_lt]
      omega
    show ((if ((vmRun vmInit l).ldr_window ++ [r]).length > window_size
        then ((vmRun vmInit l).ldr_window ++ [r]).drop 1
        else (vmRun vmInit l).ldr_window ++ [r]).sum : Rat)
      / ((if ((vmRun vmInit l).ldr_window ++ [r]).length > window_size
        then ((vmRun vmInit l).ldr_window ++ [r]).drop 1
        else (vmRun vmInit l).ldr_window ++ [r]).length : Rat) = _
    rw [if_neg hnopop, hprev, List.length_append, List.length_map, List.length_singleton]

theorem vm_window_safety_witness :
    ([((5 : Int), (0 : Int))].length ≤ 10) ∧
    (vmRun vmInit [(5, 0)]).ldr_window = [((5 : Int), (0 : Int))].map Prod.fst ∧
    ([((5 : Int), (0 : Int))].length ≤ 60) ∧
    (vmRun vmInit [(5, 0)]).motion_history = [((5 : Int), (0 : Int))].map Prod.snd ∧
    (([] : List (Int × Int)).length ≤ 9) ∧
    ((vmRun vmInit []).process 5 0).1
      = ((((([] : List (Int × Int)).map Prod.fst ++ [5]).sum : Int)) : Rat)
          / (((([] : List (Int × Int)).length + 1 : Nat)) : Rat) :=
  ⟨by decide, vm_window_safety.2.1 [(5, 0)] (by decide),
   by decide, vm_window_safety.2.2.1 [(5, 0)] (by decide),
   by decide, vm_window_safety.2.2.2 [] 5 0 (by decide)⟩

end StreetLight
